import Mathlib

/-!
Verification of the Anthropic streaming-completion client
(crates/anthropic/src/anthropic.rs).

The embedding models the pure content of the client: the model catalog,
the role and request types with their wire serialization, and the
streaming response decoder.  JSON parsing follows the behaviour of the
serde_json text parser on the fragment of JSON the client exchanges:
strict RFC-8259 syntax, whole-input consumption, integers distinguished
from numbers carrying a fraction or exponent (the latter cannot fill an
unsigned integer field and are kept only as raw text).
-/

set_option maxRecDepth 8000
set_option linter.dupNamespace false

namespace Anthropic

/-- JSON values as produced by the serde_json parser.  A number written
with a fraction or exponent part is kept as `float` with its raw text:
deserializing an unsigned integer field from such a number fails, and no
decoded event field is a floating-point value. -/
inductive Json where
  | null : Json
  | bool (b : Bool) : Json
  | num (n : Int) : Json
  | float (raw : String) : Json
  | str (s : String) : Json
  | arr (elems : List Json) : Json
  | obj (members : List (String × Json)) : Json

/-- JSON whitespace (RFC 8259: space, tab, line feed, carriage return). -/
def jsonWs (c : Char) : Bool :=
  c == ' ' || c == '\t' || c == '\n' || c == '\r'

def skipJsonWs : List Char → List Char
  | [] => []
  | c :: cs => if jsonWs c then skipJsonWs cs else c :: cs

def hexVal (c : Char) : Option Nat :=
  let n := c.toNat
  if 48 ≤ n ∧ n ≤ 57 then some (n - 48)
  else if 97 ≤ n ∧ n ≤ 102 then some (n - 87)
  else if 65 ≤ n ∧ n ≤ 70 then some (n - 55)
  else none

def simpleEscape : Char → Option Char
  | '"' => some '"'
  | '\\' => some '\\'
  | '/' => some '/'
  | 'b' => some '\x08'
  | 'f' => some '\x0c'
  | 'n' => some '\n'
  | 'r' => some '\r'
  | 't' => some '\t'
  | _ => none

def hex4 (h1 h2 h3 h4 : Char) : Option Nat := do
  let a ← hexVal h1
  let b ← hexVal h2
  let c ← hexVal h3
  let d ← hexVal h4
  pure (((a * 16 + b) * 16 + c) * 16 + d)

/-- Body of a JSON string after the opening quote: returns the decoded
characters and the input remaining after the closing quote.  Escapes and
surrogate pairs follow serde_json; an unescaped control character or a
lone surrogate is rejected. -/
def parseStringBody : Nat → List Char → Option (List Char × List Char)
  | 0, _ => none
  | _ + 1, [] => none
  | fuel + 1, c :: cs =>
    if c == '"' then some ([], cs)
    else if c == '\\' then
      match cs with
      | [] => none
      | e :: cs2 =>
        if e == 'u' then
          match cs2 with
          | h1 :: h2 :: h3 :: h4 :: cs3 =>
            match hex4 h1 h2 h3 h4 with
            | none => none
            | some n =>
              if n / 1024 = 54 then
                match cs3 with
                | '\\' :: 'u' :: g1 :: g2 :: g3 :: g4 :: cs4 =>
                  match hex4 g1 g2 g3 g4 with
                  | none => none
                  | some m =>
                    if m / 1024 = 55 then
                      let code := 65536 + 1024 * (n - 55296) + (m - 56320)
                      match parseStringBody fuel cs4 with
                      | some (s, r) => some (Char.ofNat code :: s, r)
                      | none => none
                    else none
                | _ => none
              else if n / 1024 = 55 then none
              else
                match parseStringBody fuel cs3 with
                | some (s, r) => some (Char.ofNat n :: s, r)
                | none => none
          | _ => none
        else
          match simpleEscape e with
          | some ch =>
            match parseStringBody fuel cs2 with
            | some (s, r) => some (ch :: s, r)
            | none => none
          | none => none
    else if c.toNat < 0x20 then none
    else
      match parseStringBody fuel cs with
      | some (s, r) => some (c :: s, r)
      | none => none

def takeDigits : List Char → List Char × List Char
  | [] => ([], [])
  | c :: cs =>
    if c.isDigit then
      let (d, r) := takeDigits cs
      (c :: d, r)
    else ([], c :: cs)

def digitsToNat (ds : List Char) : Nat :=
  ds.foldl (fun a c => a * 10 + (c.toNat - '0'.toNat)) 0

/-- A JSON number (RFC 8259 grammar).  An integer literal becomes
`Json.num`; a literal with a fraction or exponent becomes `Json.float`
carrying the raw text. -/
def parseNumber (cs : List Char) : Option (Json × List Char) :=
  let (neg, cs1) :=
    match cs with
    | '-' :: t => (true, t)
    | _ => (false, cs)
  match cs1 with
  | [] => none
  | c :: _ =>
    if ¬ c.isDigit then none
    else
      let (intDigits, rest1) :=
        match cs1 with
        | '0' :: t => (['0'], t)
        | _ => takeDigits cs1
      let (fracDigits, rest2, fracOk) :=
        match rest1 with
        | '.' :: t =>
          let (fd, r) := takeDigits t
          (fd, r, !fd.isEmpty)
        | _ => ([], rest1, true)
      if !fracOk then none
      else
        let (expDigits, rest3, expOk, hasExp) :=
          match rest2 with
          | 'e' :: t | 'E' :: t =>
            let (sign, t2) :=
              match t with
              | '+' :: u => (['+'], u)
              | '-' :: u => (['-'], u)
              | _ => (([] : List Char), t)
            let (ed, r) := takeDigits t2
            (sign ++ ed, r, !ed.isEmpty, true)
          | _ => ([], rest2, true, false)
        if !expOk then none
        else if fracDigits.isEmpty ∧ ¬ hasExp then
          let v : Int := Int.ofNat (digitsToNat intDigits)
          some (Json.num (if neg then -v else v), rest3)
        else
          let raw := (if neg then "-" else "") ++ String.mk intDigits ++
            (if fracDigits.isEmpty then "" else "." ++ String.mk fracDigits) ++
            (if hasExp then "e" ++ String.mk expDigits else "")
          some (Json.float raw, rest3)

/-- Mode selector for the single-function recursive-descent parser:
a value, the elements after `[` (first element already due), or the
members after `\x7b`. -/
inductive PMode where
  | value : PMode
  | elems : PMode
  | members : PMode

/-- Result of one parsing step, matching the mode it was run in. -/
inductive POut where
  | val (j : Json) : POut
  | elemList (es : List Json) : POut
  | memberList (ms : List (String × Json)) : POut

/-- Recursive-descent JSON parser, structurally recursive on a fuel
bound so that it evaluates inside the kernel.  The fuel supplied by
`parseJson` always suffices for the input length. -/
def parseStep : Nat → PMode → List Char → Option (POut × List Char)
  | 0, _, _ => none
  | Nat.succ fuel, PMode.value, cs =>
    match skipJsonWs cs with
    | [] => none
    | c :: rest =>
      if c == 'n' then
        match rest with
        | 'u' :: 'l' :: 'l' :: r => some (POut.val Json.null, r)
        | _ => none
      else if c == 't' then
        match rest with
        | 'r' :: 'u' :: 'e' :: r => some (POut.val (Json.bool true), r)
        | _ => none
      else if c == 'f' then
        match rest with
        | 'a' :: 'l' :: 's' :: 'e' :: r => some (POut.val (Json.bool false), r)
        | _ => none
      else if c == '"' then
        match parseStringBody (rest.length + 1) rest with
        | some (s, r) => some (POut.val (Json.str (String.mk s)), r)
        | none => none
      else if c == '[' then
        match skipJsonWs rest with
        | ']' :: r => some (POut.val (Json.arr []), r)
        | r2 =>
          match parseStep fuel PMode.elems r2 with
          | some (POut.elemList es, r) => some (POut.val (Json.arr es), r)
          | _ => none
      else if c == '\x7b' then
        match skipJsonWs rest with
        | '\x7d' :: r => some (POut.val (Json.obj []), r)
        | r2 =>
          match parseStep fuel PMode.members r2 with
          | some (POut.memberList ms, r) => some (POut.val (Json.obj ms), r)
          | _ => none
      else if c == '-' || c.isDigit then
        match parseNumber (c :: rest) with
        | some (j, r) => some (POut.val j, r)
        | none => none
      else none
  | Nat.succ fuel, PMode.elems, cs =>
    match parseStep fuel PMode.value cs with
    | some (POut.val v, r) =>
      (match skipJsonWs r with
       | ',' :: r2 =>
         match parseStep fuel PMode.elems r2 with
         | some (POut.elemList vs, r3) => some (POut.elemList (v :: vs), r3)
         | _ => none
       | ']' :: r2 => some (POut.elemList [v], r2)
       | _ => none)
    | _ => none
  | Nat.succ fuel, PMode.members, cs =>
    match skipJsonWs cs with
    | '"' :: r =>
      (match parseStringBody (r.length + 1) r with
       | none => none
       | some (k, r2) =>
         match skipJsonWs r2 with
         | ':' :: r3 =>
           (match parseStep fuel PMode.value r3 with
            | some (POut.val v, r4) =>
              (match skipJsonWs r4 with
               | ',' :: r5 =>
                 match parseStep fuel PMode.members r5 with
                 | some (POut.memberList ms, r6) =>
                   some (POut.memberList ((String.mk k, v) :: ms), r6)
                 | _ => none
               | '\x7d' :: r5 => some (POut.memberList [(String.mk k, v)], r5)
               | _ => none)
            | _ => none)
         | _ => none)
    | _ => none

/-- serde_json text parsing of a complete document: one value, then
only whitespace may remain. -/
def parseJson (s : String) : Option Json :=
  match parseStep (4 * s.data.length + 4) PMode.value s.data with
  | some (POut.val v, rest) => if (skipJsonWs rest).isEmpty then some v else none
  | _ => none

/-! Response event model (the Deserialize impls of anthropic.rs). -/

/-- Usage: optional input/output token counts. -/
structure Usage where
  input_tokens : Option Nat
  output_tokens : Option Nat
deriving DecidableEq

/-- ResponseMessage: partially-populated message envelope, every field
optional.  The wire name of `message_type` is `type`. -/
structure ResponseMessage where
  message_type : Option String
  id : Option String
  role : Option String
  content : Option (List String)
  model : Option String
  stop_reason : Option String
  stop_sequence : Option String
  usage : Option Usage
deriving DecidableEq

/-- ContentBlock: internally tagged by `type`, text-only today. -/
inductive ContentBlock where
  | Text (text : String) : ContentBlock
deriving DecidableEq

/-- TextDelta: internally tagged by `type`, text_delta-only today. -/
inductive TextDelta where
  | TextDelta (text : String) : TextDelta
deriving DecidableEq

/-- ResponseEvent: the tagged union over the seven event kinds, tag
field `type`, variant names serialized in snake_case.  Indices are u32
on the wire and kept as Nat bounded at decode time. -/
inductive ResponseEvent where
  | MessageStart (message : ResponseMessage) : ResponseEvent
  | ContentBlockStart (index : Nat) (content_block : ContentBlock) : ResponseEvent
  | Ping : ResponseEvent
  | ContentBlockDelta (index : Nat) (delta : TextDelta) : ResponseEvent
  | ContentBlockStop (index : Nat) : ResponseEvent
  | MessageDelta (delta : ResponseMessage) (usage : Usage) : ResponseEvent
  | MessageStop : ResponseEvent
deriving DecidableEq

def lookupMember : List (String × Json) → String → Option Json
  | [], _ => none
  | (k, v) :: rest, key => if k == key then some v else lookupMember rest key

def asObj : Json → Option (List (String × Json))
  | Json.obj ms => some ms
  | _ => none

def asString : Json → Option String
  | Json.str s => some s
  | _ => none

/-- A u32 field: an integer JSON number within the u32 range; a number
with a fraction or exponent, or out of range, fails. -/
def asU32 : Json → Option Nat
  | Json.num n => if 0 ≤ n ∧ n ≤ 4294967295 then some n.toNat else none
  | _ => none

def asStringList (j : Json) : Option (List String) :=
  match j with
  | Json.arr es => es.mapM asString
  | _ => none

/-- Decode an Option field per serde: absent or null means none; a
present non-null value must decode or the frame fails. -/
def optField (ms : List (String × Json)) (key : String)
    (dec : Json → Option α) : Option (Option α) :=
  match lookupMember ms key with
  | none => some none
  | some Json.null => some none
  | some v =>
    match dec v with
    | some a => some (some a)
    | none => none

/-- Decode a required field: must be present and decode. -/
def reqField (ms : List (String × Json)) (key : String)
    (dec : Json → Option α) : Option α :=
  match lookupMember ms key with
  | some v => dec v
  | none => none

def decodeUsage (j : Json) : Option Usage := do
  let ms ← asObj j
  let it ← optField ms "input_tokens" asU32
  let ot ← optField ms "output_tokens" asU32
  pure ⟨it, ot⟩

def decodeResponseMessage (j : Json) : Option ResponseMessage := do
  let ms ← asObj j
  let mt ← optField ms "type" asString
  let i ← optField ms "id" asString
  let r ← optField ms "role" asString
  let c ← optField ms "content" asStringList
  let m ← optField ms "model" asString
  let sr ← optField ms "stop_reason" asString
  let ss ← optField ms "stop_sequence" asString
  let u ← optField ms "usage" decodeUsage
  pure ⟨mt, i, r, c, m, sr, ss, u⟩

def decodeContentBlock (j : Json) : Option ContentBlock := do
  let ms ← asObj j
  let tag ← lookupMember ms "type" >>= asString
  if tag == "text" then do
    let t ← reqField ms "text" asString
    pure (ContentBlock.Text t)
  else none

def decodeTextDelta (j : Json) : Option TextDelta := do
  let ms ← asObj j
  let tag ← lookupMember ms "type" >>= asString
  if tag == "text_delta" then do
    let t ← reqField ms "text" asString
    pure (TextDelta.TextDelta t)
  else none

/-- Decode one event frame: an internally tagged union on the `type`
field; an unrecognized discriminant fails the frame, unknown extra
fields are ignored, missing required fields fail. -/
def decodeResponseEvent (j : Json) : Option ResponseEvent := do
  let ms ← asObj j
  let tag ← lookupMember ms "type" >>= asString
  match tag with
  | "message_start" => do
    let m ← reqField ms "message" decodeResponseMessage
    pure (ResponseEvent.MessageStart m)
  | "content_block_start" => do
    let i ← reqField ms "index" asU32
    let cb ← reqField ms "content_block" decodeContentBlock
    pure (ResponseEvent.ContentBlockStart i cb)
  | "ping" => pure ResponseEvent.Ping
  | "content_block_delta" => do
    let i ← reqField ms "index" asU32
    let d ← reqField ms "delta" decodeTextDelta
    pure (ResponseEvent.ContentBlockDelta i d)
  | "content_block_stop" => do
    let i ← reqField ms "index" asU32
    pure (ResponseEvent.ContentBlockStop i)
  | "message_delta" => do
    let d ← reqField ms "delta" decodeResponseMessage
    let u ← reqField ms "usage" decodeUsage
    pure (ResponseEvent.MessageDelta d u)
  | "message_stop" => pure ResponseEvent.MessageStop
  | _ => none

/-- serde_json from_str for ResponseEvent: parse the text, then decode
the tagged union. -/
def parseResponseEvent (s : String) : Option ResponseEvent := do
  let j ← parseJson s
  decodeResponseEvent j

/-! Model catalog. -/

/-- Model: the four known families plus the open Custom variant
(name, optional max-token override).  usize is modelled as Nat. -/
inductive Model where
  | Claude3_5Sonnet : Model
  | Claude3Opus : Model
  | Claude3Sonnet : Model
  | Claude3Haiku : Model
  | Custom (name : String) (max_tokens : Option Nat) : Model
deriving DecidableEq

/-- Rust str::starts_with on the character sequence. -/
def strStartsWith (s p : String) : Bool :=
  p.data.isPrefixOf s.data

/-- Model::from_id — prefix match against the known families in source
order, falling back to Custom; every branch returns Ok. -/
def Model.from_id (id : String) : Except String Model :=
  if strStartsWith id "claude-3-5-sonnet" then Except.ok Model.Claude3_5Sonnet
  else if strStartsWith id "claude-3-opus" then Except.ok Model.Claude3Opus
  else if strStartsWith id "claude-3-sonnet" then Except.ok Model.Claude3Sonnet
  else if strStartsWith id "claude-3-haiku" then Except.ok Model.Claude3Haiku
  else Except.ok (Model.Custom id none)

/-- Model::id — the wire identifier returned by the source, including
the "claude-3-opus-20240307" string in the Claude3Haiku arm. -/
def Model.id : Model → String
  | Model.Claude3_5Sonnet => "claude-3-5-sonnet-20240620"
  | Model.Claude3Opus => "claude-3-opus-20240229"
  | Model.Claude3Sonnet => "claude-3-sonnet-20240229"
  | Model.Claude3Haiku => "claude-3-opus-20240307"
  | Model.Custom name _ => name

/-- Model::display_name. -/
def Model.display_name : Model → String
  | Model.Claude3_5Sonnet => "Claude 3.5 Sonnet"
  | Model.Claude3Opus => "Claude 3 Opus"
  | Model.Claude3Sonnet => "Claude 3 Sonnet"
  | Model.Claude3Haiku => "Claude 3 Haiku"
  | Model.Custom name _ => name

/-- Model::max_token_count — 200000 for known families, the override or
200000 for Custom. -/
def Model.max_token_count : Model → Nat
  | Model.Claude3_5Sonnet => 200000
  | Model.Claude3Opus => 200000
  | Model.Claude3Sonnet => 200000
  | Model.Claude3Haiku => 200000
  | Model.Custom _ mt => mt.getD 200000

/-- The serde rename attribute declared on each Model variant — the
canonical wire identifier each entry itself declares. -/
def Model.serde_rename : Model → String
  | Model.Claude3_5Sonnet => "claude-3-5-sonnet-20240620"
  | Model.Claude3Opus => "claude-3-opus-20240229"
  | Model.Claude3Sonnet => "claude-3-sonnet-20240229"
  | Model.Claude3Haiku => "claude-3-haiku-20240307"
  | Model.Custom _ _ => "custom"

def Model.isCustom : Model → Bool
  | Model.Custom _ _ => true
  | _ => false

/-! Role and request types. -/

/-- Role: user or assistant. -/
inductive Role where
  | User : Role
  | Assistant : Role
deriving DecidableEq

/-- TryFrom String for Role — partial, failing on anything but the two
wire strings (error message as in the source). -/
def Role.try_from (value : String) : Except String Role :=
  if value = "user" then Except.ok Role.User
  else if value = "assistant" then Except.ok Role.Assistant
  else Except.error ("invalid role \x27" ++ value ++ "\x27")

/-- From Role for String — total. -/
def Role.toString : Role → String
  | Role.User => "user"
  | Role.Assistant => "assistant"

/-- The serde wire name of a Role (rename_all = lowercase). -/
def Role.serde_name : Role → String
  | Role.User => "user"
  | Role.Assistant => "assistant"

/-- RequestMessage: one conversation turn. -/
structure RequestMessage where
  role : Role
  content : String
deriving DecidableEq

/-- Request: the outbound body; max_tokens is u32, modelled as Nat. -/
structure Request where
  model : Model
  messages : List RequestMessage
  stream : Bool
  system : String
  max_tokens : Nat

/-- serialize_request_model — serializes the model field as the plain
wire id string. -/
def serialize_request_model (m : Model) : Json :=
  Json.str (Model.id m)

/-- Serde serialization of a RequestMessage (derive, declared field
order). -/
def requestMessageToJson (m : RequestMessage) : Json :=
  Json.obj [("role", Json.str (Role.serde_name m.role)),
            ("content", Json.str m.content)]

/-- Serde serialization of a Request (derive, declared field order,
model through serialize_request_model). -/
def requestToJson (r : Request) : Json :=
  Json.obj [("model", serialize_request_model r.model),
            ("messages", Json.arr (r.messages.map requestMessageToJson)),
            ("stream", Json.bool r.stream),
            ("system", Json.str r.system),
            ("max_tokens", Json.num (Int.ofNat r.max_tokens))]

/-! Streaming response decoder. -/

/-- The significant-line marker `"data: "`. -/
def dataMarker : String := "data: "

/-- str::strip_prefix of the marker: the remainder when the line starts
with `"data: "`, none otherwise. -/
def stripDataMarker (line : String) : Option String :=
  if strStartsWith line dataMarker then
    some (String.mk (line.data.drop dataMarker.data.length))
  else none

/-- The per-line body of the filter_map closure on an Ok line: skip the
line unless the marker heads it; strip the marker; a parse success
yields the event, a parse failure yields an in-sequence error carrying
that frame text. -/
def processLine (line : String) : Option (Except String ResponseEvent) :=
  match stripDataMarker line with
  | none => none
  | some rest =>
    match parseResponseEvent rest with
    | some ev => some (Except.ok ev)
    | none => some (Except.error rest)

/-- One item of the line stream: a transport read error is wrapped as
an in-sequence error, an Ok line goes through processLine. -/
def processItem (item : Except String String) : Option (Except String ResponseEvent) :=
  match item with
  | Except.ok line => processLine line
  | Except.error e => some (Except.error e)

/-- The success-branch event sequence: filter_map over the line items. -/
def streamEvents (items : List (Except String String)) :
    List (Except String ResponseEvent) :=
  items.filterMap processItem

/-- The event sequence produced from fully-received body lines (every
read succeeded). -/
def decodeBodyLines (lines : List String) : List (Except String ResponseEvent) :=
  streamEvents (lines.map Except.ok)

/-- Inside splitLinesAux the current line is accumulated reversed, so a
carriage return that ended the line sits at the head. -/
def dropHeadCR (cs : List Char) : List Char :=
  match cs with
  | '\r' :: t => t
  | _ => cs

/-- Line splitting of the response body as the buffered lines adapter
does it: split at each newline, strip one carriage return before a
newline, keep a final unterminated line as is, no empty final line. -/
def splitLinesAux (acc : List Char) : List Char → List String
  | [] => if acc.isEmpty then [] else [String.mk acc.reverse]
  | '\n' :: rest => String.mk (dropHeadCR acc).reverse :: splitLinesAux [] rest
  | c :: rest => splitLinesAux (c :: acc) rest

def splitLines (body : String) : List String :=
  splitLinesAux [] body.data

/-- The response as the decoder sees it once headers have arrived. -/
structure HttpResponse where
  status : Nat
  body : String

/-- http StatusCode::is_success: 2xx. -/
def statusIsSuccess (status : Nat) : Bool :=
  200 ≤ status && status < 300

/-- The two whole-call errors of the non-success branch, carrying
exactly the data the formatted anyhow messages embed. -/
inductive ApiError where
  | unexpectedSuccess (body : String) : ApiError
  | failedToConnect (status : Nat) (body : String) : ApiError
deriving DecidableEq

/-- stream_completion from the response on: a success status yields the
lazily decoded event sequence over the body lines; a non-success status
reads the whole body and resolves the call to a single error —
unexpectedSuccess with the raw body when the body itself parses as an
event frame, otherwise failedToConnect with the status and raw body. -/
def stream_completion (response : HttpResponse) :
    Except ApiError (List (Except String ResponseEvent)) :=
  if statusIsSuccess response.status then
    Except.ok (streamEvents ((splitLines response.body).map Except.ok))
  else
    match parseResponseEvent response.body with
    | some _ => Except.error (ApiError.unexpectedSuccess response.body)
    | none => Except.error (ApiError.failedToConnect response.status response.body)

deriving instance DecidableEq for Except

/-! Helper lemmas shared by the claim theorems. -/

lemma decodeBodyLines_eq_filterMap (lines : List String) :
    decodeBodyLines lines = lines.filterMap processLine := by
  unfold decodeBodyLines streamEvents
  rw [List.filterMap_map]
  rfl

lemma isPrefixOf_self_append (p t : List Char) : p.isPrefixOf (p ++ t) = true := by
  induction p with
  | nil => simp [List.isPrefixOf]
  | cons c cs ih => simp [List.isPrefixOf, ih]

lemma stripDataMarker_append (f : String) : stripDataMarker (dataMarker ++ f) = some f := by
  cases f with
  | mk d =>
    unfold stripDataMarker strStartsWith
    rw [String.data_append, isPrefixOf_self_append]
    simp [String.data_append, List.drop_left]

lemma processLine_eq_error (l f : String) (h1 : stripDataMarker l = some f)
    (h2 : parseResponseEvent f = none) :
    processLine l = some (Except.error f) := by
  simp [processLine, h1, h2]

lemma processLine_eq_ok (f : String) (ev : ResponseEvent)
    (h : parseResponseEvent f = some ev) :
    processLine (dataMarker ++ f) = some (Except.ok ev) := by
  simp [processLine, stripDataMarker_append, h]

lemma processLine_eq_none (l : String) (h : strStartsWith l dataMarker = false) :
    processLine l = none := by
  simp [processLine, stripDataMarker, h]

lemma decodeBodyLines_cons (l : String) (ls : List String) :
    decodeBodyLines (l :: ls) = (processLine l).toList ++ decodeBodyLines ls := by
  simp only [decodeBodyLines_eq_filterMap, List.filterMap_cons]
  cases h : processLine l <;> simp

lemma decodeBodyLines_append_cons (pre post : List String) (l : String) :
    decodeBodyLines (pre ++ l :: post) =
      decodeBodyLines pre ++ (processLine l).toList ++ decodeBodyLines post := by
  simp only [decodeBodyLines_eq_filterMap, List.filterMap_append, List.filterMap_cons]
  cases h : processLine l <;> simp

/-! Claim theorems. -/

/-- Claim C1: a body line that begins with the marker but whose
remainder fails to decode as an event frame contributes an error value
at its position in the output sequence, and the surrounding lines are
decoded exactly as they would be on their own — decoding continues. -/
theorem badFrame_error_in_sequence (pre post : List String) (bad frame : String)
    (h1 : stripDataMarker bad = some frame)
    (h2 : parseResponseEvent frame = none) :
    decodeBodyLines (pre ++ bad :: post) =
      decodeBodyLines pre ++ Except.error frame :: decodeBodyLines post := by
  rw [decodeBodyLines_append_cons, processLine_eq_error bad frame h1 h2]
  simp

/-- Claim C1 witness: a frame with the unrecognized discriminant bogus
between a ping line and a message_stop line yields exactly the error
element between the two decoded events. -/
theorem badFrame_error_in_sequence_witness :
    decodeBodyLines (["data: \x7b\"type\":\"ping\"\x7d"] ++
        "data: \x7b\"type\":\"bogus\"\x7d" ::
        ["data: \x7b\"type\":\"message_stop\"\x7d"]) =
      [Except.ok ResponseEvent.Ping,
       Except.error "\x7b\"type\":\"bogus\"\x7d",
       Except.ok ResponseEvent.MessageStop] := by
  rw [badFrame_error_in_sequence ["data: \x7b\"type\":\"ping\"\x7d"]
      ["data: \x7b\"type\":\"message_stop\"\x7d"]
      "data: \x7b\"type\":\"bogus\"\x7d" "\x7b\"type\":\"bogus\"\x7d"
      (by decide) (by decide)]
  decide

/-- Claim C2: a body line that does not begin with the marker is
skipped, contributing no element at all; and a success response whose
body is a single JSON object line with no marker yields the empty
event sequence. -/
theorem nonData_lines_skipped :
    (∀ (pre post : List String) (l : String),
       strStartsWith l dataMarker = false →
       decodeBodyLines (pre ++ l :: post) = decodeBodyLines pre ++ decodeBodyLines post)
    ∧ (∀ (body : String) (kvs : List (String × Json)),
       parseJson body = some (Json.obj kvs) →
       strStartsWith body dataMarker = false →
       splitLines body = [body] →
       stream_completion ⟨200, body⟩ = Except.ok []) := by
  constructor
  · intro pre post l hl
    rw [decodeBodyLines_append_cons, processLine_eq_none l hl]
    simp
  · intro body kvs _ hl hone
    have hs : statusIsSuccess (200 : Nat) = true := rfl
    simp only [stream_completion, hs, if_true, hone]
    simp [streamEvents, processItem, processLine_eq_none body hl]

/-- Claim C2 witness: a blank keep-alive line between a ping line and a
message_stop line adds nothing, and a 200 response whose whole body is
one unmarked JSON event object decodes to the empty sequence. -/
theorem nonData_lines_skipped_witness :
    decodeBodyLines (["data: \x7b\"type\":\"ping\"\x7d"] ++ "" ::
        ["data: \x7b\"type\":\"message_stop\"\x7d"]) =
      decodeBodyLines ["data: \x7b\"type\":\"ping\"\x7d"] ++
        decodeBodyLines ["data: \x7b\"type\":\"message_stop\"\x7d"] ∧
    stream_completion ⟨200, "\x7b\"type\":\"ping\"\x7d"⟩ = Except.ok [] :=
  ⟨nonData_lines_skipped.1 ["data: \x7b\"type\":\"ping\"\x7d"]
      ["data: \x7b\"type\":\"message_stop\"\x7d"] "" (by decide),
   nonData_lines_skipped.2 "\x7b\"type\":\"ping\"\x7d" [("type", Json.str "ping")]
      (by rfl) (by decide) (by decide)⟩

/-- Claim C3: on a non-success status the whole call resolves to one
error and no event sequence: the anomaly error with the raw body when
the body itself parses as an event frame, otherwise the connect error
embedding the status code and the raw body text. -/
theorem error_status_single_error (resp : HttpResponse)
    (h : statusIsSuccess resp.status = false) :
    stream_completion resp =
      Except.error
        (match parseResponseEvent resp.body with
         | some _ => ApiError.unexpectedSuccess resp.body
         | none => ApiError.failedToConnect resp.status resp.body) := by
  unfold stream_completion
  rw [h]
  cases hp : parseResponseEvent resp.body <;> simp [hp]

/-- Claim C3 witness: a 429 with a rate-limit error body resolves to
the single connect error embedding 429 and the body text. -/
theorem error_status_single_error_witness :
    stream_completion ⟨429, "\x7b\"error\":\x7b\"message\":\"rate limited\"\x7d\x7d"⟩ =
      Except.error (ApiError.failedToConnect 429
        "\x7b\"error\":\x7b\"message\":\"rate limited\"\x7d\x7d") := by
  rw [error_status_single_error
      ⟨429, "\x7b\"error\":\x7b\"message\":\"rate limited\"\x7d\x7d"⟩ (by decide)]
  decide

/-- Claim C4: when every line is the marker followed by a well-formed
frame, the decoder yields exactly the decoded events, one per line, in
line order. -/
theorem wellFormed_lines_decode_in_order (frames : List String) (evs : List ResponseEvent)
    (h : List.Forall₂ (fun f ev => parseResponseEvent f = some ev) frames evs) :
    decodeBodyLines (frames.map (fun f => dataMarker ++ f)) = evs.map Except.ok := by
  induction h with
  | nil => rfl
  | cons hfe htl ih =>
    rename_i f ev fs evs2
    rw [List.map_cons, decodeBodyLines_cons, processLine_eq_ok f ev hfe, ih, List.map_cons]
    rfl

/-- Claim C4 witness: the three-line Ping scenario yields exactly
message_start, content_block_delta, message_stop in that order. -/
theorem wellFormed_lines_decode_in_order_witness :
    decodeBodyLines
      ["data: \x7b\"type\":\"message_start\",\"message\":\x7b\x7d\x7d",
       "data: \x7b\"type\":\"content_block_delta\",\"index\":0,\"delta\":\x7b\"type\":\"text_delta\",\"text\":\"pong\"\x7d\x7d",
       "data: \x7b\"type\":\"message_stop\"\x7d"] =
      [Except.ok (ResponseEvent.MessageStart ⟨none, none, none, none, none, none, none, none⟩),
       Except.ok (ResponseEvent.ContentBlockDelta 0 (TextDelta.TextDelta "pong")),
       Except.ok ResponseEvent.MessageStop] :=
  wellFormed_lines_decode_in_order
    ["\x7b\"type\":\"message_start\",\"message\":\x7b\x7d\x7d",
     "\x7b\"type\":\"content_block_delta\",\"index\":0,\"delta\":\x7b\"type\":\"text_delta\",\"text\":\"pong\"\x7d\x7d",
     "\x7b\"type\":\"message_stop\"\x7d"]
    [ResponseEvent.MessageStart ⟨none, none, none, none, none, none, none, none⟩,
     ResponseEvent.ContentBlockDelta 0 (TextDelta.TextDelta "pong"),
     ResponseEvent.MessageStop]
    (List.Forall₂.cons (by decide)
      (List.Forall₂.cons (by decide)
        (List.Forall₂.cons (by decide) List.Forall₂.nil)))

/-- Claim C5: the id round-trip is not the identity on Claude3Haiku —
its id arm returns the opus-prefixed string claude-3-opus-20240307,
contradicting the claude-3-haiku-20240307 identifier that the same
entry declares in its serde rename, so from_id maps it to Claude3Opus
whose id differs; the other three families do round-trip. -/
theorem haiku_id_roundtrip_bug :
    Model.id Model.Claude3Haiku = "claude-3-opus-20240307" ∧
    Model.serde_rename Model.Claude3Haiku = "claude-3-haiku-20240307" ∧
    Model.id Model.Claude3Haiku ≠ Model.serde_rename Model.Claude3Haiku ∧
    Model.from_id (Model.id Model.Claude3Haiku) = Except.ok Model.Claude3Opus ∧
    Model.id Model.Claude3Opus ≠ Model.id Model.Claude3Haiku ∧
    Model.from_id (Model.id Model.Claude3_5Sonnet) = Except.ok Model.Claude3_5Sonnet ∧
    Model.from_id (Model.id Model.Claude3Opus) = Except.ok Model.Claude3Opus ∧
    Model.from_id (Model.id Model.Claude3Sonnet) = Except.ok Model.Claude3Sonnet := by
  decide

/-- Claim C6 counterexample: a Custom model may carry an empty name and
a zero override, so id is empty and max_token_count is not positive. -/
theorem model_invariant_counterexample :
    Model.id (Model.Custom "" (some 0)) = "" ∧
    ¬ 0 < Model.max_token_count (Model.Custom "" (some 0)) := by
  decide

/-- Claim C6 amended: every known variant has a non-empty id and
max_token_count 200000; a Custom variant returns its stored name as id
and the default 200000 when no override is present, or the override
value itself when one is — non-emptiness and positivity for Custom
hold only as far as the caller-supplied name and override provide
them. -/
theorem model_id_maxTokens_amended :
    (∀ m : Model, Model.isCustom m = false →
       Model.id m ≠ "" ∧ Model.max_token_count m = 200000)
    ∧ (∀ name, Model.id (Model.Custom name none) = name ∧
         Model.max_token_count (Model.Custom name none) = 200000)
    ∧ (∀ name t, Model.id (Model.Custom name (some t)) = name ∧
         Model.max_token_count (Model.Custom name (some t)) = t) := by
  refine ⟨?_, fun name => ⟨rfl, rfl⟩, fun name t => ⟨rfl, rfl⟩⟩
  intro m hm
  cases m <;> first
    | exact ⟨by decide, rfl⟩
    | simp [Model.isCustom] at hm

/-- Claim C6 amended witness: the invariant at Claude3Opus and at two
concrete Custom models. -/
theorem model_id_maxTokens_amended_witness :
    (Model.id Model.Claude3Opus ≠ "" ∧ Model.max_token_count Model.Claude3Opus = 200000) ∧
    Model.max_token_count (Model.Custom "m" none) = 200000 ∧
    Model.max_token_count (Model.Custom "m" (some 1)) = 1 :=
  ⟨model_id_maxTokens_amended.1 Model.Claude3Opus (by decide),
   (model_id_maxTokens_amended.2.1 "m").2,
   (model_id_maxTokens_amended.2.2 "m" 1).2⟩

/-- Claim C7: converting a Role to its wire string and back is the
identity, and the string-to-Role conversion fails with the invalid-role
error on every other string. -/
theorem role_roundtrip :
    (∀ r : Role, Role.try_from (Role.toString r) = Except.ok r)
    ∧ (∀ s : String, s ≠ "user" → s ≠ "assistant" →
         Role.try_from s = Except.error ("invalid role \x27" ++ s ++ "\x27")) := by
  constructor
  · intro r
    cases r <;> rfl
  · intro s h1 h2
    unfold Role.try_from
    rw [if_neg h1, if_neg h2]

/-- Claim C7 witness: the round-trip at User and the failure at the
string bogus. -/
theorem role_roundtrip_witness :
    Role.try_from (Role.toString Role.User) = Except.ok Role.User ∧
    Role.try_from "bogus" = Except.error "invalid role \x27bogus\x27" :=
  ⟨role_roundtrip.1 Role.User,
   role_roundtrip.2 "bogus" (by decide) (by decide)⟩

/-- Claim C8: from_id succeeds on every input, and an input matching
none of the four family name beginnings becomes the Custom variant
with no override, whose id is the input unchanged. -/
theorem from_id_total_custom :
    (∀ s : String, ∃ m, Model.from_id s = Except.ok m)
    ∧ (∀ s : String,
         strStartsWith s "claude-3-5-sonnet" = false →
         strStartsWith s "claude-3-opus" = false →
         strStartsWith s "claude-3-sonnet" = false →
         strStartsWith s "claude-3-haiku" = false →
         Model.from_id s = Except.ok (Model.Custom s none) ∧
         Model.id (Model.Custom s none) = s) := by
  constructor
  · intro s
    unfold Model.from_id
    repeat first
      | exact ⟨_, rfl⟩
      | split
  · intro s h1 h2 h3 h4
    refine ⟨?_, rfl⟩
    simp [Model.from_id, h1, h2, h3, h4]

/-- Claim C8 witness: the unrecognized id gpt-4 is absorbed into the
Custom variant and round-trips unchanged, and from_id also succeeds on
a known id. -/
theorem from_id_total_custom_witness :
    Model.from_id "gpt-4" = Except.ok (Model.Custom "gpt-4" none) ∧
    Model.id (Model.Custom "gpt-4" none) = "gpt-4" ∧
    (∃ m, Model.from_id "claude-3-opus-20240229" = Except.ok m) :=
  ⟨(from_id_total_custom.2 "gpt-4" (by decide) (by decide) (by decide) (by decide)).1,
   (from_id_total_custom.2 "gpt-4" (by decide) (by decide) (by decide) (by decide)).2,
   from_id_total_custom.1 "claude-3-opus-20240229"⟩

/-- Claim C9: the serialized request is a JSON object whose model field
is the plain wire id string, with the messages array of role/content
objects in order, the stream flag, the system string, and the
max_tokens integer. -/
theorem request_serialization_shape (r : Request) :
    requestToJson r =
      Json.obj [("model", Json.str (Model.id r.model)),
                ("messages", Json.arr (r.messages.map requestMessageToJson)),
                ("stream", Json.bool r.stream),
                ("system", Json.str r.system),
                ("max_tokens", Json.num (Int.ofNat r.max_tokens))] ∧
    ∀ m : RequestMessage,
      requestMessageToJson m =
        Json.obj [("role", Json.str (Role.serde_name m.role)),
                  ("content", Json.str m.content)] :=
  ⟨rfl, fun _ => rfl⟩

/-- Claim C10: the line consisting of exactly the marker is not
skipped — the marker is stripped first, the empty remainder fails to
parse, and an in-sequence error element is produced at that
position. -/
theorem bare_data_line_error :
    stripDataMarker "data: " = some "" ∧
    parseResponseEvent "" = none ∧
    processLine "data: " = some (Except.error "") ∧
    ∀ pre post : List String,
      decodeBodyLines (pre ++ "data: " :: post) =
        decodeBodyLines pre ++ Except.error "" :: decodeBodyLines post := by
  refine ⟨by decide, by decide, by decide, ?_⟩
  intro pre post
  rw [decodeBodyLines_append_cons,
    show processLine "data: " = some (Except.error "") from by decide]
  simp

end Anthropic
